import Mathlib

/-!
Verification of the review-lifecycle core of the GitHub PR code-review agent:
the trigger gate and orchestrator (`src/controllers/githubWebhookController.js`),
the Review record transition methods (`src/models/Review.js`),
the Gemini retry loop, response parsing and summary generation
(`src/services/geminiService.js`), and the duplicate-posting check
(`src/services/githubService.js`).

External collaborators (the JSON library, the Gemini API, the GitHub API,
the MongoDB store) are modelled as oracle parameters: each external call's
outcome is an explicit input of the embedded function.  Timestamps are
natural numbers; `Date.now` calls within one run are modelled by two clock
values `tStart ≤ tEnd`.  Text is modelled as Lean `String` / `List Char`.
-/

namespace CRA

/-! ## Text helpers (JS string/regex operations used by geminiService) -/

/-- JS `\s` whitespace class, approximated by `Char.isWhitespace`. -/
def isWsChar (c : Char) : Bool := c.isWhitespace

/-- Index of the first occurrence of the sequence `pat` in `l` (JS `indexOf` on a substring). -/
def findSeqIdx (pat : List Char) : List Char → Option Nat
  | [] => if pat.isPrefixOf ([] : List Char) then some 0 else none
  | c :: rest =>
    if pat.isPrefixOf (c :: rest) then some 0
    else (findSeqIdx pat rest).map (· + 1)

/-- `true` when `pat` occurs inside `s` — models JS `String.prototype.includes`. -/
def containsSubstr (s pat : String) : Bool :=
  (findSeqIdx pat.toList s.toList).isSome

/-- Fuel-driven worker for `stripPatWs`; each step consumes at least one character. -/
def stripPatWsAux (pat : List Char) : Nat → List Char → List Char
  | 0, l => l
  | _ + 1, [] => []
  | fuel + 1, c :: rest =>
    if pat.isPrefixOf (c :: rest) then
      stripPatWsAux pat fuel (List.dropWhile isWsChar ((c :: rest).drop pat.length))
    else
      c :: stripPatWsAux pat fuel rest

/-- Models `text.replace(/<pat>\s*/g, '')`: every occurrence of the literal
pattern together with the following whitespace run is removed. -/
def stripPatWs (pat : List Char) (l : List Char) : List Char :=
  stripPatWsAux pat l.length l

/-- The three-backtick fence delimiter. -/
def tickPat : List Char := "```".toList

/-- Fuel-driven worker for `removeFenced`. -/
def removeFencedAux : Nat → List Char → List Char
  | 0, l => l
  | _ + 1, [] => []
  | fuel + 1, c :: rest =>
    if tickPat.isPrefixOf (c :: rest) then
      match findSeqIdx tickPat ((c :: rest).drop 3) with
      | some i => removeFencedAux fuel (((c :: rest).drop 3).drop (i + 3))
      | none => c :: removeFencedAux fuel rest
    else
      c :: removeFencedAux fuel rest

/-- Models `text.replace(/```[\s\S]*?```/g, '')`: non-greedy removal of fenced blocks. -/
def removeFenced (l : List Char) : List Char :=
  removeFencedAux l.length l

/-- Models JS `String.prototype.trim`. -/
def trimList (l : List Char) : List Char :=
  ((l.dropWhile isWsChar).reverse.dropWhile isWsChar).reverse

/-- Index of the first occurrence of character `c` (JS `indexOf`), as an option. -/
def firstIdxOf (c : Char) (l : List Char) : Option Nat :=
  l.findIdx? (· = c)

/-- Index of the last occurrence of character `c` (JS `lastIndexOf`), as an option. -/
def lastIdxOf (c : Char) (l : List Char) : Option Nat :=
  match (l.reverse.findIdx? (· = c)) with
  | some i => some (l.length - 1 - i)
  | none => none

/-- The slice from the first `[` through the last `]`, provided the last `]`
comes strictly after the first `[`.  This is both the greedy regex match
`/\[[\s\S]*\]/` used by the primary cleanup and the
`indexOf('[')`/`lastIndexOf(']')` extraction used by the fallback parser. -/
def extractBracketSlice (l : List Char) : Option (List Char) :=
  match firstIdxOf '[' l, lastIdxOf ']' l with
  | some i, some j => if i < j then some ((l.drop i).take (j - i + 1)) else none
  | _, _ => none

/-! ## Gemini response parsing (`GeminiService.parseReviewResponse`) -/

/-- A raw comment entry as found in the parsed JSON array.  Every field is
optional: a missing/`null`/non-object source is `none`.  The `line` field is
`none` when JS `parseInt` would produce `NaN`. -/
structure RawComment where
  file : Option String
  line : Option Int
  severity : Option String
  category : Option String
  comment : Option String
  suggestion : Option String
deriving DecidableEq, Repr

/-- Outcome of the external `JSON.parse` call: an array of entries, a
non-array JSON value, or a parse exception (`none` at the call site). -/
inductive Json where
  | arr (items : List RawComment)
  | other
deriving DecidableEq, Repr

/-- JS truthiness of an optional string field: missing, `null` and `""` are falsy. -/
def truthyStr : Option String → Bool
  | some s => s ≠ ""
  | none => false

/-- Models `parseInt(comment.line) || 1` (both `NaN` and `0` fall back to `1`). -/
def parseIntOr1 : Option Int → Int
  | some n => if n = 0 then 1 else n
  | none => 1

/-- The closed severity enumeration accepted by the parser. -/
def allowedSeverities : List String := ["error", "warning", "suggestion"]

/-- Models `normalizeSeverity`: anything outside the allowed set becomes `error`. -/
def normalizeSeverity : Option String → String
  | some s => if allowedSeverities.contains s then s else "error"
  | none => "error"

/-- A validated, normalized review comment. -/
structure ReviewComment where
  file : String
  line : Int
  severity : String
  category : String
  comment : String
  suggestion : Option String
deriving DecidableEq, Repr

/-- The filter applied to each raw entry: both `file` and `comment` must be truthy. -/
def isValidRaw (c : RawComment) : Bool :=
  truthyStr c.file && truthyStr c.comment

/-- Normalization applied to each kept entry. -/
def normItem (c : RawComment) : ReviewComment :=
  { file := c.file.getD ""
    line := parseIntOr1 c.line
    severity := normalizeSeverity c.severity
    category := match c.category with
      | some s => if s = "" then "general" else s
      | none => "general"
    comment := c.comment.getD ""
    suggestion := match c.suggestion with
      | some s => if s = "" then none else some s
      | none => none }

/-- The cleaned string handed to the primary `JSON.parse` call: strip
markdown fences, trim, cut to the outermost bracketed region, and cut after
the last `]`. -/
def primaryCandidate (s : String) : String :=
  let l1 := stripPatWs "```json".toList s.toList
  let l2 := stripPatWs tickPat l1
  let l3 := removeFenced l2
  let l4 := trimList l3
  let l5 := match extractBracketSlice l4 with
    | some m => m
    | none => l4
  let l6 := match lastIdxOf ']' l5 with
    | some j => l5.take (j + 1)
    | none => l5
  String.mk l6

/-- The fallback parse path of `parseReviewResponse`: extract the slice from
the first `[` to the last `]` of the original response and parse that; any
failure yields the empty comment list. -/
def fallbackParse (jp : String → Option Json) (s : String) : List ReviewComment :=
  match extractBracketSlice s.toList with
  | some sub =>
    match jp (String.mk sub) with
    | some (Json.arr items) => (items.filter isValidRaw).map normItem
    | some Json.other => []
    | none => []
  | none => []

/-- `GeminiService.parseReviewResponse`, with the external JSON library as
the oracle `jp` (`none` models a thrown parse exception). -/
def parseReviewResponse (jp : String → Option Json) (s : String) : List ReviewComment :=
  match jp (primaryCandidate s) with
  | some (Json.arr items) => (items.filter isValidRaw).map normItem
  | some Json.other => []
  | none => fallbackParse jp s

/-! ## Summary generation (`GeminiService.generateSummaryComment`) -/

/-- Increment the count for key `k` in an association list, preserving JS
object insertion order (a new key is appended). -/
def bumpCount (k : String) : List (String × Nat) → List (String × Nat)
  | [] => [(k, 1)]
  | (k', n) :: rest => if k' = k then (k', n + 1) :: rest else (k', n) :: bumpCount k rest

/-- Models the `reduce` building `categoryCounts` / `severityCounts`. -/
def countsBy (f : ReviewComment → String) (cs : List ReviewComment) : List (String × Nat) :=
  cs.foldl (fun acc c => bumpCount (f c) acc) []

/-- Lookup of a count; a missing key counts as `0` (JS `undefined` is falsy). -/
def lookupCount (k : String) (m : List (String × Nat)) : Nat :=
  ((m.find? (fun p => p.1 = k)).map Prod.snd).getD 0

/-- `GeminiService.getCategoryEmoji`. -/
def categoryEmoji (category : String) : String :=
  if category = "security" then "🔒"
  else if category = "performance" then "⚡"
  else if category = "readability" then "📖"
  else if category = "best-practices" then "✨"
  else if category = "testing" then "🧪"
  else if category = "documentation" then "📝"
  else if category = "general" then "💬"
  else "💬"

/-- The summary returned for an empty comment list. -/
def noIssuesSummary : String :=
  "🎉 **Code Review Complete**\n\nThis pull request looks good! No issues found during the automated review."

/-- The opening line of the non-empty summary. -/
def summaryHeader : String := "🤖 **Automated Code Review Summary**\n\n"

/-- One changed file of the pull request, as consumed by the orchestrator. -/
structure DiffFile where
  file_path : String
  status : String
  additions : Nat
  deletions : Nat
  changes : Nat
deriving DecidableEq, Repr

/-- The PR + diff context fetched from GitHub (`getPullRequestData` result). -/
structure PrData where
  pull_request_id : Nat
  repository : String
  diff_files : List DiffFile
deriving DecidableEq, Repr

/-- The body of the non-empty summary (everything after the header). -/
def summaryBody (cs : List ReviewComment) : String :=
  let sevCounts := countsBy (fun c => c.severity) cs
  let catCounts := countsBy (fun c => c.category) cs
  let e := lookupCount "error" sevCounts
  let w := lookupCount "warning" sevCounts
  let g := lookupCount "suggestion" sevCounts
  "Found " ++ toString cs.length ++ " item(s) to review:\n\n"
    ++ (if e ≠ 0 then "🔴 **" ++ toString e ++ " Error(s)**\n" else "")
    ++ (if w ≠ 0 then "🟡 **" ++ toString w ++ " Warning(s)**\n" else "")
    ++ (if g ≠ 0 then "💡 **" ++ toString g ++ " Suggestion(s)**\n" else "")
    ++ "\n**Categories:**\n"
    ++ String.join (catCounts.map (fun p =>
        categoryEmoji p.1 ++ " " ++ p.1 ++ ": " ++ toString p.2 ++ "\n"))
    ++ "\nPlease review the inline comments for detailed feedback."

/-- `GeminiService.generateSummaryComment` (pure: nothing in the body can throw). -/
def generateSummaryComment (cs : List ReviewComment) (_pd : PrData) : String :=
  if cs.isEmpty then noIssuesSummary
  else String.mk (summaryHeader.data ++ (summaryBody cs).data)

/-! ## Gemini retry loop (`GeminiService.generateReview`) -/

/-- Outcome of one `model.generateContent` call: the response text, or a
rejection carrying the error message. -/
inductive GenOutcome where
  | ok (text : String)
  | err (msg : String)
deriving Repr

/-- The retryable-failure test: the message mentions `503` or `overloaded`. -/
def isRetryableMsg (m : String) : Bool :=
  containsSubstr m "503" || containsSubstr m "overloaded"

/-- `maxRetries` of `generateReview`. -/
def maxRetries : Nat := 5

/-- The single aggregated error thrown when the loop gives up.  Note the
attempt count in the text is always the constant `maxRetries`. -/
def aggError (lastMsg : String) : String :=
  "Failed to generate code review after " ++ toString maxRetries ++ " attempts: " ++ lastMsg

/-- Result of the retry loop: the returned comments or the thrown error,
the number of attempts actually made, and the waits (in milliseconds,
jitter included) performed between attempts, in order. -/
structure GenResult where
  result : Except String (List ReviewComment)
  attemptsMade : Nat
  waits : List Nat
deriving Repr

/-- The retry loop body.  `left` is the number of attempts still allowed
after the current one (`left = maxRetries - attempt` at every reachable
call, so `left > 0` is exactly the JS guard `attempt < maxRetries`);
`o n` is the outcome of the n-th `generateContent` call and `j n` the
jitter (in ms) drawn before the retry following attempt `n`. -/
def genLoopAux (jp : String → Option Json) (o : Nat → GenOutcome) (j : Nat → Nat) :
    Nat → Nat → GenResult
  | left, attempt =>
    match o attempt with
    | GenOutcome.ok text => ⟨Except.ok (parseReviewResponse jp text), attempt, []⟩
    | GenOutcome.err m =>
      if isRetryableMsg m then
        match left with
        | l + 1 =>
          let r := genLoopAux jp o j l (attempt + 1)
          ⟨r.result, r.attemptsMade, (2 ^ attempt * 1000 + j attempt) :: r.waits⟩
        | 0 => ⟨Except.error (aggError m), attempt, []⟩
      else ⟨Except.error (aggError m), attempt, []⟩

/-- `GeminiService.generateReview`: up to `maxRetries` attempts starting at
attempt 1, so `maxRetries - 1` retries remain available. -/
def generateReview (jp : String → Option Json) (o : Nat → GenOutcome) (j : Nat → Nat) :
    GenResult :=
  genLoopAux jp o j (maxRetries - 1) 1

/-! ## Review record (`src/models/Review.js`) -/

/-- The status enumeration of the review schema. -/
inductive ReviewStatus where
  | pending
  | in_progress
  | completed
  | failed
  | skipped
deriving DecidableEq, Repr

/-- The `prInfo` sub-document. -/
structure PrInfo where
  title : String
  description : String
  author : String
  baseBranch : String
  headBranch : String
  commitSha : String
deriving DecidableEq, Repr

/-- One entry of `filesReviewed`. -/
structure FileReviewed where
  filePath : String
  status : String
  additions : Nat
  deletions : Nat
  changes : Nat
deriving DecidableEq, Repr

/-- The Review record.  Timestamps are clock values (`Option Nat`),
`none` meaning the field is unset. -/
structure Review where
  pullRequestId : Nat
  repository : String
  owner : String
  repo : String
  prInfo : PrInfo
  comments : List ReviewComment
  summaryComment : Option String
  status : ReviewStatus
  githubReviewId : Option Nat
  reviewStartedAt : Option Nat
  reviewCompletedAt : Option Nat
  errorMessage : Option String
  retryCount : Nat
  filesReviewed : List FileReviewed
deriving DecidableEq, Repr

/-- `reviewSchema.methods.markInProgress`, at clock value `t`. -/
def markInProgress (r : Review) (t : Nat) : Review :=
  { r with status := ReviewStatus.in_progress, reviewStartedAt := some t }

/-- `reviewSchema.methods.markCompleted`, at clock value `t`.  The GitHub
review id is stored only when the argument is truthy (so `0` is dropped,
as JS `if (githubReviewId)` would). -/
def markCompleted (r : Review) (ghid : Option Nat) (t : Nat) : Review :=
  { r with
    status := ReviewStatus.completed
    reviewCompletedAt := some t
    githubReviewId := match ghid with
      | some i => if i ≠ 0 then some i else r.githubReviewId
      | none => r.githubReviewId }

/-- `reviewSchema.methods.markFailed`, at clock value `t`. -/
def markFailed (r : Review) (msg : String) (t : Nat) : Review :=
  { r with
    status := ReviewStatus.failed
    errorMessage := some msg
    reviewCompletedAt := some t }

/-- `reviewSchema.methods.incrementRetry`. -/
def incrementRetry (r : Review) : Review :=
  { r with
    retryCount := r.retryCount + 1
    status := ReviewStatus.pending
    errorMessage := none }

/-! ## Duplicate-posting check (`GitHubService.hasAlreadyReviewed`) -/

/-- The try-block of `hasAlreadyReviewed`: list the PR's reviews, resolve
the bot identity, and test whether any review author matches it.
`listRes` carries the reviewer logins; either call may reject. -/
def hasAlreadyReviewedCore (listRes : Except String (List String))
    (botRes : Except String String) : Except String Bool := do
  let reviews ← listRes
  let bot ← botRes
  pure ((reviews.filter (fun u => u = bot)).length > 0)

/-- `GitHubService.hasAlreadyReviewed`: the catch-all turns any failure of
the try-block into the answer `false`. -/
def hasAlreadyReviewed (listRes : Except String (List String))
    (botRes : Except String String) : Except String Bool :=
  match hasAlreadyReviewedCore listRes botRes with
  | Except.error _ => Except.ok false
  | Except.ok b => Except.ok b

/-! ## Trigger gate (`GitHubWebhookController.handlePullRequest`) -/

/-- The fields of the pull-request webhook payload read by the gate. -/
structure PREvent where
  action : String
  draft : Bool
  number : Nat
  owner : String
  repo : String
  fullName : String
  title : String
  body : String
  author : String
  baseRef : String
  headRef : String
  headSha : String
deriving DecidableEq, Repr

/-- The gate's decision, as observable from its HTTP response. -/
inductive PRDecision where
  | notProcessed
  | alreadyReviewedSkip
  | draftSkip
  | started
deriving DecidableEq, Repr

/-- What the gate did: its decision, every record it saved (in order), and
whether it launched an orchestration run. -/
structure GateResult where
  decision : PRDecision
  savedRecords : List Review
  runStarted : Bool
deriving DecidableEq, Repr

/-- The actions the gate considers relevant. -/
def relevantActions : List String := ["opened", "synchronize", "reopened"]

/-- A fresh record created from the event (schema defaults: status
`pending`, `retryCount` 0, `reviewStartedAt` defaulted to the creation
clock `t`). -/
def newReviewFromEvent (ev : PREvent) (t : Nat) : Review :=
  { pullRequestId := ev.number
    repository := ev.fullName
    owner := ev.owner
    repo := ev.repo
    prInfo :=
      { title := ev.title
        description := ev.body
        author := ev.author
        baseBranch := ev.baseRef
        headBranch := ev.headRef
        commitSha := ev.headSha }
    comments := []
    summaryComment := none
    status := ReviewStatus.pending
    githubReviewId := none
    reviewStartedAt := some t
    reviewCompletedAt := none
    errorMessage := none
    retryCount := 0
    filesReviewed := [] }

/-- The refresh applied to an existing record on the admit path:
`prInfo.commitSha` updated, status forced back to `pending`,
`errorMessage` cleared. -/
def refreshReview (r : Review) (ev : PREvent) : Review :=
  { r with
    prInfo := { r.prInfo with commitSha := ev.headSha }
    status := ReviewStatus.pending
    errorMessage := none }

/-- `handlePullRequest`: the gate over one PR event, given the record found
by `Review.findByPR` (the lookup already performed) and the creation clock
`t`.  Mirrors the source order: irrelevant-action check, then
completed-record check, then draft check, then create-or-refresh and
launch. -/
def handlePullRequest (ev : PREvent) (existing : Option Review) (t : Nat) : GateResult :=
  if ¬ relevantActions.contains ev.action then
    ⟨PRDecision.notProcessed, [], false⟩
  else if (match existing with
      | some r => decide (r.status = ReviewStatus.completed) && decide (ev.action ≠ "synchronize")
      | none => false : Bool) then
    ⟨PRDecision.alreadyReviewedSkip, [], false⟩
  else if ev.draft then
    ⟨PRDecision.draftSkip, [], false⟩
  else
    match existing with
    | none => ⟨PRDecision.started, [newReviewFromEvent ev t], true⟩
    | some r => ⟨PRDecision.started, [refreshReview r ev], true⟩

/-! ## Manual retry endpoint (`GitHubWebhookController.retryReview`) -/

/-- The rejection kinds of the retry endpoint (`AppError`s in the source;
the two status rejections are the spec's InvalidState). -/
inductive RetryErr where
  | notFound
  | alreadyCompleted
  | alreadyInProgress
deriving DecidableEq, Repr

/-- `retryReview` over the record found by `Review.findByPR`: a rejection
saves nothing; an acceptance saves exactly the incremented record (and then
launches a run, not modelled further here). -/
def retryReview (found : Option Review) : Except RetryErr Review :=
  match found with
  | none => Except.error RetryErr.notFound
  | some r =>
    if r.status = ReviewStatus.completed then Except.error RetryErr.alreadyCompleted
    else if r.status = ReviewStatus.in_progress then Except.error RetryErr.alreadyInProgress
    else Except.ok (incrementRetry r)

/-! ## Orchestrator (`GitHubWebhookController.processReviewAsync`) -/

/-- Outcomes of every external call one orchestration run can make. -/
structure OrchEnv where
  listReviewsRes : Except String (List String)
  botUserRes : Except String String
  prDataRes : Except String PrData
  genOutcomes : Nat → GenOutcome
  jitter : Nat → Nat
  jsonParse : String → Option Json
  postRes : Except String Nat
  fallbackRes : Except String Unit

/-- What one orchestration run did: its propagated result, the final state
of the record (`none` when the lookup found nothing), the statuses assigned
by `mark*` calls in order, and whether a fallback notice was posted. -/
structure RunResult where
  result : Except String Unit
  record : Option Review
  statusTrace : List ReviewStatus
  fallbackPosted : Bool

/-- The catch-block of `processReviewAsync` for the case where the record
was loaded: post a fallback notice when the error signals AI overload
(a failure of that post is swallowed), `markFailed`, and rethrow. -/
def catchPath (env : OrchEnv) (r : Review) (e : String) (tEnd : Nat) : RunResult :=
  let posted := isRetryableMsg e &&
    (match env.fallbackRes with
      | Except.ok _ => true
      | Except.error _ => false)
  ⟨Except.error e, some (markFailed r e tEnd), [ReviewStatus.failed], posted⟩

/-- The try-block of `processReviewAsync` after `markInProgress` succeeded
on `r1`.  The returned trace lists the statuses assigned after
`in_progress`. -/
def runBody (env : OrchEnv) (r1 : Review) (tEnd : Nat) : RunResult :=
  match hasAlreadyReviewed env.listReviewsRes env.botUserRes with
  | Except.error e => catchPath env r1 e tEnd
  | Except.ok true =>
    ⟨Except.ok (), some (markCompleted r1 none tEnd), [ReviewStatus.completed], false⟩
  | Except.ok false =>
    match env.prDataRes with
    | Except.error e => catchPath env r1 e tEnd
    | Except.ok pd =>
      let r2 := { r1 with
        filesReviewed := pd.diff_files.map (fun f =>
          { filePath := f.file_path
            status := f.status
            additions := f.additions
            deletions := f.deletions
            changes := f.changes }) }
      if pd.diff_files.length = 0 then
        ⟨Except.ok (), some (markCompleted r2 none tEnd), [ReviewStatus.completed], false⟩
      else
        match (generateReview env.jsonParse env.genOutcomes env.jitter).result with
        | Except.error e => catchPath env r2 e tEnd
        | Except.ok comments =>
          let summary := generateSummaryComment comments pd
          let r3 := { r2 with comments := comments, summaryComment := some summary }
          match env.postRes with
          | Except.error e => catchPath env r3 e tEnd
          | Except.ok ghid =>
            ⟨Except.ok (), some (markCompleted r3 (some ghid) tEnd),
              [ReviewStatus.completed], false⟩

/-- `processReviewAsync`: load the record (`rec?` is the `findById`
result), fail fatally when it is missing (the catch-block's
`if (review)` guard keeps `markFailed` from running), otherwise
`markInProgress` at clock `tStart` and run the body, whose terminal mark
uses clock `tEnd`. -/
def processReviewAsync (env : OrchEnv) (rec? : Option Review) (tStart tEnd : Nat) : RunResult :=
  match rec? with
  | none => ⟨Except.error "Review record not found", none, [], false⟩
  | some r0 =>
    let r1 := markInProgress r0 tStart
    let body := runBody env r1 tEnd
    ⟨body.result, body.record, ReviewStatus.in_progress :: body.statusTrace, body.fallbackPosted⟩

/-! ## Concrete fixtures used to evaluate the model on explicit inputs -/

/-- A sample `prInfo` snapshot, recorded against commit `A`. -/
def exPrInfo : PrInfo :=
  { title := "Add feature"
    description := "adds a feature"
    author := "dev"
    baseBranch := "main"
    headBranch := "feature"
    commitSha := "A" }

/-- A freshly created record in `pending` status. -/
def exPendingReview : Review :=
  { pullRequestId := 7
    repository := "octo/widgets"
    owner := "octo"
    repo := "widgets"
    prInfo := exPrInfo
    comments := []
    summaryComment := none
    status := ReviewStatus.pending
    githubReviewId := none
    reviewStartedAt := some 0
    reviewCompletedAt := none
    errorMessage := none
    retryCount := 0
    filesReviewed := [] }

/-- A record in `failed` status with two prior retries. -/
def exFailedReview : Review :=
  { exPendingReview with
    status := ReviewStatus.failed
    reviewCompletedAt := some 3
    errorMessage := some "boom"
    retryCount := 2 }

/-- A record in `completed` status, reviewed at commit `A`. -/
def exCompletedReview : Review :=
  { exPendingReview with
    status := ReviewStatus.completed
    reviewCompletedAt := some 3
    githubReviewId := some 42 }

/-- A record in `in_progress` status. -/
def exInProgressReview : Review :=
  { exPendingReview with status := ReviewStatus.in_progress }

/-- A non-draft `synchronize` event moving the PR head to commit `B`. -/
def exSyncEvent : PREvent :=
  { action := "synchronize"
    draft := false
    number := 7
    owner := "octo"
    repo := "widgets"
    fullName := "octo/widgets"
    title := "Add feature"
    body := "adds a feature"
    author := "dev"
    baseRef := "main"
    headRef := "feature"
    headSha := "B" }

/-- The same `synchronize` event, but with the PR marked draft. -/
def exSyncDraftEvent : PREvent := { exSyncEvent with draft := true }

/-- A non-draft `opened` event. -/
def exOpenedEvent : PREvent := { exSyncEvent with action := "opened", headSha := "A" }

/-- An `opened` event on a draft PR. -/
def exOpenedDraftEvent : PREvent := { exOpenedEvent with draft := true }

/-- Sample PR data with no reviewable files. -/
def exPrData : PrData :=
  { pull_request_id := 7, repository := "octo/widgets", diff_files := [] }

/-- An environment in which every external call succeeds and the bot has
not reviewed the PR yet. -/
def exEnv : OrchEnv :=
  { listReviewsRes := Except.ok []
    botUserRes := Except.ok "review-bot"
    prDataRes := Except.ok exPrData
    genOutcomes := fun _ => GenOutcome.ok "[]"
    jitter := fun _ => 0
    jsonParse := fun _ => some (Json.arr [])
    postRes := Except.ok 42
    fallbackRes := Except.ok ()
    }

/-- The record produced by the run of `exEnv` on `exPendingReview`
(no reviewable files, so the run completes immediately). -/
def exRunRecord : Review :=
  markCompleted (markInProgress exPendingReview 0) none 1

/-! ## Theorems -/

/-- C4: a record in `failed` status accepts a retry request — status becomes
`pending`, `retryCount` increments by exactly 1, `errorMessage` is cleared;
a record in `completed` or `in_progress` status is rejected with the
corresponding InvalidState error and nothing is saved; an accepted retry
never resets `retryCount` to zero. -/
theorem retry_reeligibility (r : Review) :
    (r.status = ReviewStatus.failed →
      retryReview (some r) = Except.ok
        { r with
          status := ReviewStatus.pending
          retryCount := r.retryCount + 1
          errorMessage := none }) ∧
    (r.status = ReviewStatus.completed →
      retryReview (some r) = Except.error RetryErr.alreadyCompleted) ∧
    (r.status = ReviewStatus.in_progress →
      retryReview (some r) = Except.error RetryErr.alreadyInProgress) ∧
    (∀ r', retryReview (some r) = Except.ok r' →
      r'.retryCount = r.retryCount + 1 ∧ r'.retryCount ≠ 0) := by
  refine ⟨?_, ?_, ?_, ?_⟩
  · intro h
    simp [retryReview, h, incrementRetry]
  · intro h
    simp [retryReview, h]
  · intro h
    simp [retryReview, h]
  · intro r' h
    simp only [retryReview] at h
    split_ifs at h
    injection h with h2
    subst h2
    simp [incrementRetry]

/-- Witness for `retry_reeligibility` at the concrete failed record. -/
theorem retry_reeligibility_witness :
    retryReview (some exFailedReview) = Except.ok
      { exFailedReview with
        status := ReviewStatus.pending
        retryCount := exFailedReview.retryCount + 1
        errorMessage := none } :=
  (retry_reeligibility exFailedReview).1 rfl

/-- C6: a PR event with action `opened` on a key whose record is already
`completed` yields the skip-already-reviewed decision, saves nothing,
and starts no orchestration run. -/
theorem idempotent_skip_completed_opened (ev : PREvent) (r : Review) (t : Nat)
    (hact : ev.action = "opened") (hst : r.status = ReviewStatus.completed) :
    handlePullRequest ev (some r) t =
      ⟨PRDecision.alreadyReviewedSkip, [], false⟩ := by
  have hne : ev.action ≠ "synchronize" := by rw [hact]; decide
  simp [handlePullRequest, hact, hst, relevantActions, hne]

/-- Witness for `idempotent_skip_completed_opened` at a concrete event/record. -/
theorem idempotent_skip_completed_opened_witness :
    handlePullRequest exOpenedEvent (some exCompletedReview) 9 =
      ⟨PRDecision.alreadyReviewedSkip, [], false⟩ :=
  idempotent_skip_completed_opened exOpenedEvent exCompletedReview 9 rfl rfl

/-- C9: a run whose record lookup finds nothing aborts fatally with the
lookup error surfaced to the caller, no status is ever assigned (so
`markFailed` is not invoked), no record is mutated, and no retry happens. -/
theorem missing_record_aborts_fatally (env : OrchEnv) (tS tE : Nat) :
    processReviewAsync env none tS tE =
      ⟨Except.error "Review record not found", none, [], false⟩ := rfl

/-- C10: `hasAlreadyReviewed` always returns a boolean (never throws), and
any failure while listing reviews or resolving the bot identity yields
`false` (fail-open). -/
theorem has_already_reviewed_fail_open (listRes : Except String (List String))
    (botRes : Except String String) :
    (∃ b, hasAlreadyReviewed listRes botRes = Except.ok b) ∧
    (∀ e, listRes = Except.error e →
      hasAlreadyReviewed listRes botRes = Except.ok false) ∧
    (∀ e, botRes = Except.error e →
      hasAlreadyReviewed listRes botRes = Except.ok false) := by
  cases listRes <;> cases botRes <;>
    simp [hasAlreadyReviewed, hasAlreadyReviewedCore, Except.bind, Bind.bind, pure, Except.pure]

/-- Witness for `has_already_reviewed_fail_open`: a failing review listing
produces the answer `false`. -/
theorem has_already_reviewed_fail_open_witness :
    hasAlreadyReviewed (Except.error "rate limited") (Except.ok "review-bot") =
      Except.ok false :=
  (has_already_reviewed_fail_open (Except.error "rate limited")
    (Except.ok "review-bot")).2.1 "rate limited" rfl

/-- C5 counterexample: a `synchronize` event on a completed record at
commit `A` with the PR now at commit `B`, but with the PR marked draft,
is skipped by the draft check — the record is not refreshed (nothing is
saved, the commit stays `A`, the status stays `completed`) and no run
starts, contradicting the claim as stated. -/
theorem synchronize_refresh_draft_cex :
    exSyncDraftEvent.action = "synchronize" ∧
    exCompletedReview.status = ReviewStatus.completed ∧
    exCompletedReview.prInfo.commitSha = "A" ∧
    exSyncDraftEvent.headSha = "B" ∧
    handlePullRequest exSyncDraftEvent (some exCompletedReview) 5 =
      ⟨PRDecision.draftSkip, [], false⟩ :=
  ⟨rfl, rfl, rfl, rfl, by decide⟩

/-- C5 amended: a *non-draft* `synchronize` event on a key whose record is
`completed` refreshes the existing record — `prInfo.commitSha` is updated
to the event's head commit, status is reset to `pending`, `errorMessage`
is cleared — the refreshed record is the one saved, and a fresh
orchestration run is started. -/
theorem synchronize_refresh_nondraft (ev : PREvent) (r : Review) (t : Nat)
    (hact : ev.action = "synchronize") (hdraft : ev.draft = false)
    (_hst : r.status = ReviewStatus.completed) :
    handlePullRequest ev (some r) t =
      ⟨PRDecision.started, [refreshReview r ev], true⟩ ∧
    (refreshReview r ev).prInfo.commitSha = ev.headSha ∧
    (refreshReview r ev).status = ReviewStatus.pending ∧
    (refreshReview r ev).errorMessage = none := by
  refine ⟨?_, rfl, rfl, rfl⟩
  simp [handlePullRequest, hact, hdraft, relevantActions]

/-- Witness for `synchronize_refresh_nondraft` at the concrete event moving
the head commit from `A` to `B`. -/
theorem synchronize_refresh_nondraft_witness :
    handlePullRequest exSyncEvent (some exCompletedReview) 5 =
      ⟨PRDecision.started, [refreshReview exCompletedReview exSyncEvent], true⟩ ∧
    (refreshReview exCompletedReview exSyncEvent).prInfo.commitSha = "B" :=
  ⟨(synchronize_refresh_nondraft exSyncEvent exCompletedReview 5 rfl rfl rfl).1,
    (synchronize_refresh_nondraft exSyncEvent exCompletedReview 5 rfl rfl rfl).2.1⟩

/-- C7 counterexample: a relevant event on a *draft* PR whose record is
`completed` (action `opened`) is decided skip-already-reviewed, not
skip-draft — the completed-record check runs before the draft check,
contradicting the claimed rule order. -/
theorem draft_check_order_cex :
    exOpenedDraftEvent.draft = true ∧
    relevantActions.contains exOpenedDraftEvent.action = true ∧
    (handlePullRequest exOpenedDraftEvent (some exCompletedReview) 5).decision =
      PRDecision.alreadyReviewedSkip ∧
    PRDecision.alreadyReviewedSkip ≠ PRDecision.draftSkip :=
  ⟨rfl, by decide, by decide, by decide⟩

/-- C7 amended: the completed-record check is applied before the draft
check; every relevant draft event on which the completed-record skip does
not fire is decided skip-draft, with nothing saved (in particular a draft
PR with no existing record causes no record creation) and no run started. -/
theorem draft_skip_when_not_already_completed (ev : PREvent) (existing : Option Review)
    (t : Nat) (hrel : relevantActions.contains ev.action = true)
    (hdraft : ev.draft = true)
    (hnc : ∀ r, existing = some r → r.status = ReviewStatus.completed →
      ev.action = "synchronize") :
    handlePullRequest ev existing t = ⟨PRDecision.draftSkip, [], false⟩ := by
  have hA : ¬ ¬ relevantActions.contains ev.action = true := not_not_intro hrel
  cases existing with
  | none =>
    unfold handlePullRequest
    rw [if_neg hA]
    simp [hdraft]
  | some r =>
    have hbc : (decide (r.status = ReviewStatus.completed) &&
        decide (ev.action ≠ "synchronize")) = false := by
      by_cases hc : r.status = ReviewStatus.completed
      · simp [hc, hnc r rfl hc]
      · simp [hc]
    unfold handlePullRequest
    rw [if_neg hA]
    simp [hbc, hdraft]
    exact hnc r rfl

/-- Witness for `draft_skip_when_not_already_completed`: a draft PR with no
existing record creates nothing and is decided skip-draft. -/
theorem draft_skip_when_not_already_completed_witness :
    handlePullRequest exOpenedDraftEvent none 5 =
      ⟨PRDecision.draftSkip, [], false⟩ :=
  draft_skip_when_not_already_completed exOpenedDraftEvent none 5 (by decide) rfl
    (fun r hr _ => absurd hr (by simp))

/-- A pattern occurring in `l` still occurs after appending `l'`. -/
theorem findSeqIdx_isSome_append (pat l l' : List Char)
    (h : (findSeqIdx pat l).isSome = true) :
    (findSeqIdx pat (l ++ l')).isSome = true := by
  induction l with
  | nil =>
    have hpat : pat = [] := by
      by_cases hp : pat.isPrefixOf ([] : List Char) = true
      · cases pat with
        | nil => rfl
        | cons a as => simp [List.isPrefixOf] at hp
      · simp [findSeqIdx, hp] at h
    subst hpat
    cases l' with
    | nil => simp [findSeqIdx]
    | cons c cs => simp [findSeqIdx, List.isPrefixOf]
  | cons c rest ih =>
    rw [List.cons_append]
    by_cases hp : pat.isPrefixOf (c :: rest) = true
    · have hp' : pat.isPrefixOf (c :: (rest ++ l')) = true := by
        rw [List.isPrefixOf_iff_prefix] at hp ⊢
        exact hp.trans ((c :: rest).prefix_append l')
      simp [findSeqIdx, hp']
    · have hrest : (findSeqIdx pat rest).isSome = true := by
        simpa [findSeqIdx, hp, Option.isSome_map] using h
      have h2 := ih hrest
      by_cases hq : pat.isPrefixOf (c :: (rest ++ l')) = true
      · simp [findSeqIdx, hq]
      · simp [findSeqIdx, hq, Option.isSome_map, h2]

/-- A substring of `s` is a substring of `s ++ m` for every tail `m`. -/
theorem containsSubstr_append_left (s m pat : String)
    (h : containsSubstr s pat = true) : containsSubstr (s ++ m) pat = true := by
  unfold containsSubstr at h ⊢
  rw [show (s ++ m).toList = s.toList ++ m.toList from String.data_append s m]
  exact findSeqIdx_isSome_append pat.toList s.toList m.toList h

/-- The aggregated retry error always mentions "after 5 attempts". -/
theorem aggError_contains_after5 (m : String) :
    containsSubstr (aggError m) "after 5 attempts" = true := by
  have : aggError m = "Failed to generate code review after 5 attempts: " ++ m := rfl
  rw [this]
  exact containsSubstr_append_left _ m _ (by decide)

/-- The wait pushed at position `i` of the loop started at `attempt` is
`2 ^ (attempt + i) * 1000` plus the jitter drawn for attempt `attempt + i`. -/
theorem genLoopAux_waits_get? (jp : String → Option Json) (o : Nat → GenOutcome)
    (j : Nat → Nat) :
    ∀ left attempt i w, (genLoopAux jp o j left attempt).waits.get? i = some w →
      w = 2 ^ (attempt + i) * 1000 + j (attempt + i) := by
  intro left
  induction left with
  | zero =>
    intro attempt i w h
    exfalso
    revert h
    unfold genLoopAux
    cases o attempt with
    | ok text => simp
    | err m => by_cases hr : isRetryableMsg m <;> simp [hr]
  | succ l ih =>
    intro attempt i w h
    revert h
    unfold genLoopAux
    cases ho : o attempt with
    | ok text => simp
    | err m =>
      by_cases hr : isRetryableMsg m
      · simp only [hr, if_true]
        cases i with
        | zero =>
          intro h
          simp only [List.get?_cons_zero, Option.some.injEq] at h
          simpa using h.symm
        | succ i' =>
          intro h
          rw [List.get?_cons_succ] at h
          have hrec := ih (attempt + 1) i' w h
          rw [hrec]
          have heq : attempt + 1 + i' = attempt + (i' + 1) := by omega
          rw [heq]
      · simp [hr]

/-- The loop makes at most `attempt + left` attempts. -/
theorem genLoopAux_attempts_le (jp : String → Option Json) (o : Nat → GenOutcome)
    (j : Nat → Nat) :
    ∀ left attempt, (genLoopAux jp o j left attempt).attemptsMade ≤ attempt + left := by
  intro left
  induction left with
  | zero =>
    intro attempt
    unfold genLoopAux
    cases o attempt with
    | ok text => simp
    | err m => by_cases hr : isRetryableMsg m <;> simp [hr]
  | succ l ih =>
    intro attempt
    unfold genLoopAux
    cases o attempt with
    | ok text => simp
    | err m =>
      by_cases hr : isRetryableMsg m
      · simp only [hr, if_true]
        have := ih (attempt + 1)
        omega
      · simp [hr]

/-- When the loop gives up, the thrown error is the aggregated error built
from the message of the last attempt actually made. -/
theorem genLoopAux_error_shape (jp : String → Option Json) (o : Nat → GenOutcome)
    (j : Nat → Nat) :
    ∀ left attempt e, (genLoopAux jp o j left attempt).result = Except.error e →
      ∃ m, o ((genLoopAux jp o j left attempt).attemptsMade) = GenOutcome.err m ∧
        e = aggError m := by
  intro left
  induction left with
  | zero =>
    intro attempt e h
    revert h
    unfold genLoopAux
    cases ho : o attempt with
    | ok text => simp
    | err m =>
      by_cases hr : isRetryableMsg m <;> simp_all
  | succ l ih =>
    intro attempt e h
    revert h
    unfold genLoopAux
    cases ho : o attempt with
    | ok text => simp
    | err m =>
      by_cases hr : isRetryableMsg m
      · simp only [hr, if_true]
        intro h
        exact ih (attempt + 1) e h
      · simp_all

/-- C2: for consecutive retryable AI failures, the wait performed after
attempt `N` (the wait before the Nth retry, at index `N - 1`) is exactly
`2^N` seconds (2^N·1000 ms) plus that attempt's jitter; with jitter drawn
from [0, 1000) ms the wait is ≥ 2^N seconds and < 2^N seconds + 1 s, and
the number of attempts never exceeds 5. -/
theorem retry_backoff_growth (jp : String → Option Json) (o : Nat → GenOutcome)
    (j : Nat → Nat) (hj : ∀ n, j n < 1000) :
    (generateReview jp o j).attemptsMade ≤ 5 ∧
    ∀ i w, (generateReview jp o j).waits.get? i = some w →
      w = 2 ^ (i + 1) * 1000 + j (i + 1) ∧
      2 ^ (i + 1) * 1000 ≤ w ∧
      w < 2 ^ (i + 1) * 1000 + 1000 := by
  constructor
  · have h := genLoopAux_attempts_le jp o j (maxRetries - 1) 1
    simpa [generateReview, maxRetries] using h
  · intro i w hw
    have h := genLoopAux_waits_get? jp o j (maxRetries - 1) 1 i w hw
    have hcomm : 1 + i = i + 1 := Nat.add_comm 1 i
    rw [hcomm] at h
    refine ⟨h, ?_, ?_⟩
    · omega
    · have := hj (i + 1)
      omega

/-- Witness for `retry_backoff_growth`: with every attempt failing with a
503 and a constant jitter of 7 ms, the wait before the first retry is
2^1·1000 + 7 = 2007 ms. -/
theorem retry_backoff_growth_witness :
    (2007 : Nat) = 2 ^ (0 + 1) * 1000 + 7 ∧
    2 ^ (0 + 1) * 1000 ≤ 2007 ∧ 2007 < 2 ^ (0 + 1) * 1000 + 1000 := by
  have h := retry_backoff_growth (fun _ => none) (fun _ => GenOutcome.err "503")
    (fun _ => 7) (fun _ => by show (7 : Nat) < 1000; decide)
  exact h.2 0 2007 rfl

/-- C8 counterexample: a fatal (non-retryable) failure on the very first
attempt aborts after one attempt, yet the aggregated error message reports
"after 5 attempts" — the claimed "number of attempts actually made" (one)
is not what the error identifies. -/
theorem fatal_first_attempt_count_cex :
    (generateReview (fun _ => none) (fun _ => GenOutcome.err "auth denied")
      (fun _ => 0)).attemptsMade = 1 ∧
    (generateReview (fun _ => none) (fun _ => GenOutcome.err "auth denied")
      (fun _ => 0)).result =
      Except.error "Failed to generate code review after 5 attempts: auth denied" ∧
    containsSubstr "Failed to generate code review after 5 attempts: auth denied"
      "5 attempts" = true ∧
    containsSubstr "Failed to generate code review after 5 attempts: auth denied"
      "1 attempt" = false :=
  ⟨rfl, rfl, by decide, by decide⟩

/-- C8 amended: on a retryable failure with no attempts remaining or any
fatal failure, the loop aborts and propagates a single aggregated error
that identifies the last underlying cause but always names the configured
maximum attempt count (the text says "after 5 attempts" regardless of the
number of attempts actually made); the attempts made never exceed 5. -/
theorem aggregated_error_identifies_last_cause (jp : String → Option Json)
    (o : Nat → GenOutcome) (j : Nat → Nat) (e : String)
    (he : (generateReview jp o j).result = Except.error e) :
    ∃ m, o ((generateReview jp o j).attemptsMade) = GenOutcome.err m ∧
      e = aggError m ∧
      containsSubstr e "after 5 attempts" = true ∧
      (generateReview jp o j).attemptsMade ≤ 5 := by
  obtain ⟨m, hm, hagg⟩ := genLoopAux_error_shape jp o j (maxRetries - 1) 1 e he
  refine ⟨m, hm, hagg, ?_, ?_⟩
  · rw [hagg]
    exact aggError_contains_after5 m
  · have h := genLoopAux_attempts_le jp o j (maxRetries - 1) 1
    simpa [generateReview, maxRetries] using h

/-- Witness for `aggregated_error_identifies_last_cause` on a run whose
five attempts all fail with an overload error. -/
theorem aggregated_error_identifies_last_cause_witness :
    ∃ m, (fun _ => GenOutcome.err "model overloaded" : Nat → GenOutcome)
        ((generateReview (fun _ => none) (fun _ => GenOutcome.err "model overloaded")
          (fun _ => 0)).attemptsMade) = GenOutcome.err m ∧
      "Failed to generate code review after 5 attempts: model overloaded" = aggError m ∧
      containsSubstr "Failed to generate code review after 5 attempts: model overloaded"
        "after 5 attempts" = true ∧
      (generateReview (fun _ => none) (fun _ => GenOutcome.err "model overloaded")
        (fun _ => 0)).attemptsMade ≤ 5 :=
  aggregated_error_identifies_last_cause (fun _ => none)
    (fun _ => GenOutcome.err "model overloaded") (fun _ => 0)
    "Failed to generate code review after 5 attempts: model overloaded" rfl

/-- C3: when the primary structured parse of an AI response fails, the
result is whatever the secondary bracket-slice extraction yields; when that
also fails (no slice, a parse exception, or a non-array value) the
generation step returns the empty comment list — an `Except.ok []`, not a
run failure — and the empty list produces the distinct "no issues found"
summary, different from every summary produced for a non-empty list. -/
theorem parse_failure_degrades_gracefully (jp : String → Option Json)
    (o : Nat → GenOutcome) (j : Nat → Nat) (text : String) (pd : PrData)
    (h1 : o 1 = GenOutcome.ok text)
    (h2 : jp (primaryCandidate text) = none)
    (h3 : ∀ sub, extractBracketSlice text.toList = some sub →
      jp (String.mk sub) = none ∨ jp (String.mk sub) = some Json.other) :
    parseReviewResponse jp text = fallbackParse jp text ∧
    parseReviewResponse jp text = [] ∧
    (generateReview jp o j).result = Except.ok [] ∧
    generateSummaryComment [] pd = noIssuesSummary ∧
    (∀ cs, cs ≠ [] → generateSummaryComment cs pd ≠ noIssuesSummary) := by
  have hfall : fallbackParse jp text = [] := by
    unfold fallbackParse
    cases hbs : extractBracketSlice text.toList with
    | none => rfl
    | some sub =>
      rcases h3 sub hbs with hn | ho
      · simp [hn]
      · simp [ho]
  have hprim : parseReviewResponse jp text = fallbackParse jp text := by
    unfold parseReviewResponse
    rw [h2]
  have hgen : (generateReview jp o j).result = Except.ok (parseReviewResponse jp text) := by
    unfold generateReview genLoopAux
    rw [h1]
  refine ⟨hprim, hprim.trans hfall, ?_, rfl, ?_⟩
  · rw [hgen, hprim, hfall]
  · intro cs hne heq
    cases cs with
    | nil => exact hne rfl
    | cons a as =>
      have hgen2 : generateSummaryComment (a :: as) pd =
          String.mk (summaryHeader.data ++ (summaryBody (a :: as)).data) := by
        simp [generateSummaryComment]
      rw [hgen2] at heq
      have hd : summaryHeader.data ++ (summaryBody (a :: as)).data =
          noIssuesSummary.data := congrArg String.data heq
      have hh : (summaryHeader.data ++ (summaryBody (a :: as)).data).head? =
          some '🤖' := rfl
      rw [hd] at hh
      exact absurd hh (by decide)

/-- Witness for `parse_failure_degrades_gracefully`: a response with no
bracketed content at all fails both parse attempts and degrades to the
empty comment list and the no-issues summary. -/
theorem parse_failure_degrades_gracefully_witness :
    parseReviewResponse (fun _ => none) "the model rambled with no structure" = [] ∧
    (generateReview (fun _ => none)
      (fun _ => GenOutcome.ok "the model rambled with no structure")
      (fun _ => 0)).result = Except.ok [] ∧
    generateSummaryComment [] exPrData = noIssuesSummary := by
  have h := parse_failure_degrades_gracefully (fun _ => none)
    (fun _ => GenOutcome.ok "the model rambled with no structure") (fun _ => 0)
    "the model rambled with no structure" exPrData rfl rfl
    (by
      intro sub hs
      rw [show extractBracketSlice ("the model rambled with no structure").toList =
        none from rfl] at hs
      cases hs)
  exact ⟨h.2.1, h.2.2.1, h.2.2.2.1⟩

/-- The catch-path always lands in `failed`, stamps the completion clock,
and leaves `reviewStartedAt` untouched. -/
theorem catchPath_spec (env : OrchEnv) (r : Review) (e : String) (tE : Nat) (r' : Review)
    (h : (catchPath env r e tE).record = some r') :
    r'.reviewStartedAt = r.reviewStartedAt ∧
    r'.reviewCompletedAt = some tE ∧
    (catchPath env r e tE).statusTrace = [r'.status] ∧
    (r'.status = ReviewStatus.completed ∨ r'.status = ReviewStatus.failed) := by
  have h2 : markFailed r e tE = r' := by simpa [catchPath] using h
  subst h2
  exact ⟨rfl, rfl, rfl, Or.inr rfl⟩

/-- Every exit of the orchestrator body assigns exactly one terminal status
(`completed` or `failed`), stamps `reviewCompletedAt` with the terminal
clock, and preserves `reviewStartedAt`. -/
theorem runBody_spec (env : OrchEnv) (r1 : Review) (tE : Nat) (r' : Review)
    (h : (runBody env r1 tE).record = some r') :
    r'.reviewStartedAt = r1.reviewStartedAt ∧
    r'.reviewCompletedAt = some tE ∧
    (runBody env r1 tE).statusTrace = [r'.status] ∧
    (r'.status = ReviewStatus.completed ∨ r'.status = ReviewStatus.failed) := by
  unfold runBody at h ⊢
  cases hA : hasAlreadyReviewed env.listReviewsRes env.botUserRes with
  | error e =>
    simp only [hA] at h ⊢
    exact catchPath_spec env r1 e tE r' h
  | ok b =>
    cases b with
    | true =>
      simp only [hA] at h ⊢
      have h2 := h
      simp only [Option.some.injEq] at h2
      subst h2
      exact ⟨rfl, rfl, rfl, Or.inl rfl⟩
    | false =>
      cases hP : env.prDataRes with
      | error e =>
        simp only [hA, hP] at h ⊢
        exact catchPath_spec env r1 e tE r' h
      | ok pd =>
        simp only [hA, hP] at h ⊢
        by_cases hlen : pd.diff_files.length = 0
        · rw [if_pos hlen] at h ⊢
          have h2 := h
          simp only [Option.some.injEq] at h2
          subst h2
          exact ⟨rfl, rfl, rfl, Or.inl rfl⟩
        · rw [if_neg hlen] at h ⊢
          cases hG : (generateReview env.jsonParse env.genOutcomes env.jitter).result with
          | error e =>
            simp only [hG] at h ⊢
            have hcs := catchPath_spec env _ e tE r' h
            exact hcs
          | ok comments =>
            simp only [hG] at h ⊢
            cases hPost : env.postRes with
            | error e =>
              simp only [hPost] at h ⊢
              have hcs := catchPath_spec env _ e tE r' h
              exact hcs
            | ok ghid =>
              simp only [hPost] at h ⊢
              have h2 := h
              simp only [Option.some.injEq] at h2
              subst h2
              exact ⟨rfl, rfl, rfl, Or.inl rfl⟩

/-- C1: in every orchestrator run whose record reaches a terminal status,
`in_progress` is assigned before the terminal status (the trace of status
assignments is exactly `[in_progress, terminal]`, so no transition skips
`in_progress`), and with a monotone clock (`tStart ≤ tEnd`) the final
record satisfies `reviewStartedAt ≤ reviewCompletedAt` whenever both are
present. -/
theorem in_progress_before_terminal (env : OrchEnv) (rec? : Option Review)
    (tS tE : Nat) (ht : tS ≤ tE) (r' : Review)
    (hrec : (processReviewAsync env rec? tS tE).record = some r')
    (_hterm : r'.status = ReviewStatus.completed ∨ r'.status = ReviewStatus.failed) :
    (processReviewAsync env rec? tS tE).statusTrace =
      [ReviewStatus.in_progress, r'.status] ∧
    (∀ a b, r'.reviewStartedAt = some a → r'.reviewCompletedAt = some b → a ≤ b) := by
  cases rec? with
  | none => simp [processReviewAsync] at hrec
  | some r0 =>
    have hrec' : (runBody env (markInProgress r0 tS) tE).record = some r' := by
      simpa [processReviewAsync] using hrec
    obtain ⟨hs, hc, htr, _⟩ := runBody_spec env (markInProgress r0 tS) tE r' hrec'
    constructor
    · show (ReviewStatus.in_progress ::
        (runBody env (markInProgress r0 tS) tE).statusTrace) = _
      rw [htr]
    · intro a b ha hb
      rw [hs] at ha
      have ha' : a = tS := by simpa [markInProgress] using ha.symm
      have hb' : b = tE := by rw [hc] at hb; simpa using hb.symm
      omega

/-- Witness for `in_progress_before_terminal`: a run with no reviewable
files enters `in_progress` at clock 0 and completes at clock 1. -/
theorem in_progress_before_terminal_witness :
    (processReviewAsync exEnv (some exPendingReview) 0 1).statusTrace =
      [ReviewStatus.in_progress, ReviewStatus.completed] ∧
    exRunRecord.reviewStartedAt = some 0 ∧
    exRunRecord.reviewCompletedAt = some 1 := by
  have h := in_progress_before_terminal exEnv (some exPendingReview) 0 1
    (by decide) exRunRecord rfl (Or.inl rfl)
  exact ⟨h.1, rfl, rfl⟩

end CRA
